import Mathlib

/-!
Verification of the markdownrender translation layer: a shallow embedding of
`parser.py` (PlantUML encoder, Mermaid resolver, parse/reset contract),
`renderers.py` (the Word and Excel line scanners and the Excel layout), and
`api.py` (the unified render endpoint), with theorems settling the frozen
claims about them.

Python strings are embedded as Lean `String`s; where the source manipulates
strings character by character (split, strip, membership) the embedding works
on `String.data`, the underlying character list.  Machine byte values are
`Nat`s constrained to `< 256`; the bit operations `>>`, `&`, `<<`, `|` of the
encoder are written as the corresponding arithmetic on `Nat` (the or-ed
fields are disjoint, so `|` is `+`).
-/

/-- Python `str.split(sep)` for a single-character separator: splits a character
list at every occurrence of `sep`, keeping empty parts (Python semantics). -/
def splitCharGo (sep : Char) (cur : List Char) : List Char → List (List Char)
  | [] => [cur.reverse]
  | c :: cs =>
    if c = sep then cur.reverse :: splitCharGo sep [] cs
    else splitCharGo sep (c :: cur) cs

/-- Split a character list on a separator character (Python `str.split`). -/
def splitChar (sep : Char) (cs : List Char) : List (List Char) :=
  splitCharGo sep [] cs

/-- Python `str.strip()` on a character list: drop whitespace at both ends. -/
def trimChars (cs : List Char) : List Char :=
  ((cs.dropWhile Char.isWhitespace).reverse.dropWhile Char.isWhitespace).reverse

/-! ## PlantUML custom base64 (`PlantUMLPreprocessor._encode64`) -/

/-- The 64-symbol PlantUML alphabet from `_encode64`. -/
def alphabet : List Char :=
  "0123456789ABCDEFGHIJKLMNOPQRSTUVWXYZabcdefghijklmnopqrstuvwxyz-_".data

/-- Symbol `alphabet[n]`; the source only ever indexes with `n < 64`. -/
def sym (n : Nat) : Char := alphabet.getD n ' '

/-- Source `_encode64`: each 3-byte group becomes 4 alphabet symbols; a 2-byte
remainder becomes 3 symbols and a 1-byte remainder 2 symbols.  `b >> 2` is
`b / 4`, `b & 0x3` is `b % 4`, `(x << 4) | (y >> 4)` is `x * 16 + y / 16`
(the fields are disjoint), and so on. -/
def encode64 : List Nat → List Char
  | b1 :: b2 :: b3 :: rest =>
    sym (b1 / 4) :: sym (b1 % 4 * 16 + b2 / 16) ::
      sym (b2 % 16 * 4 + b3 / 64) :: sym (b3 % 64) :: encode64 rest
  | [b1, b2] =>
    [sym (b1 / 4), sym (b1 % 4 * 16 + b2 / 16), sym (b2 % 16 * 4)]
  | [b1] =>
    [sym (b1 / 4), sym (b1 % 4 * 16)]
  | [] => []

/-- Index of a character in a list (first occurrence; length if absent). -/
def charIndex (c : Char) : List Char → Nat
  | [] => 0
  | a :: rest => if a = c then 0 else charIndex c rest + 1

/-- Value of one encoded symbol: its position in the PlantUML alphabet. -/
def symVal (c : Char) : Nat := charIndex c alphabet

/-- Modelled from the spec: the repository contains no decoder, and the spec
asserts that decoding the custom base64 is the identity on the raw input
bytes.  Each 4-symbol group yields 3 bytes; trailing groups of 3 or 2
symbols yield 2 bytes or 1 byte, inverting the published bit packing. -/
def decode64 : List Char → List Nat
  | c1 :: c2 :: c3 :: c4 :: rest =>
    (symVal c1 * 4 + symVal c2 / 16) ::
      (symVal c2 % 16 * 16 + symVal c3 / 4) ::
      (symVal c3 % 4 * 64 + symVal c4) :: decode64 rest
  | [c1, c2, c3] =>
    [symVal c1 * 4 + symVal c2 / 16, symVal c2 % 16 * 16 + symVal c3 / 4]
  | [c1, c2] =>
    [symVal c1 * 4 + symVal c2 / 16]
  | _ => []

/-- Looking a symbol up in the alphabet and back is the identity below 64. -/
theorem symVal_sym {n : Nat} (h : n < 64) : symVal (sym n) = n := by
  have key : ∀ m : Fin 64, symVal (sym m.val) = m.val := by decide
  exact key ⟨n, h⟩

example : encode64 [72, 101, 108] = ['I', '6', 'L', 'i'] := by decide
example : decode64 (encode64 [72, 101, 108, 7]) = [72, 101, 108, 7] := by
  decide

/-- C1: `_encode64` packs each 3-byte group into 4 symbols of the PlantUML
alphabet exactly as published (top 6 bits of byte 1; bottom 2 bits of byte 1
plus top 4 bits of byte 2; bottom 4 bits of byte 2 plus top 2 bits of byte 3;
bottom 6 bits of byte 3), emitting 3 symbols for a 2-byte remainder and 2 for
a 1-byte remainder; consequently decoding the encoded symbol string recovers
the input bytes exactly. -/
theorem C1_encode64_roundtrip (data : List Nat) (h : ∀ b ∈ data, b < 256) :
    decode64 (encode64 data) = data := by
  induction data using encode64.induct with
  | case1 b1 b2 b3 rest ih =>
    have hb1 : b1 < 256 := h b1 (by simp)
    have hb2 : b2 < 256 := h b2 (by simp)
    have hb3 : b3 < 256 := h b3 (by simp)
    simp only [encode64, decode64]
    rw [symVal_sym (by omega), symVal_sym (by omega), symVal_sym (by omega),
      symVal_sym (by omega), ih (fun b hb => h b (by simp [hb]))]
    simp only [List.cons.injEq, and_true]
    exact ⟨by omega, by omega, by omega⟩
  | case2 b1 b2 =>
    have hb1 : b1 < 256 := h b1 (by simp)
    have hb2 : b2 < 256 := h b2 (by simp)
    simp only [encode64, decode64]
    rw [symVal_sym (by omega), symVal_sym (by omega), symVal_sym (by omega)]
    simp only [List.cons.injEq, and_true]
    exact ⟨by omega, by omega⟩
  | case3 b1 =>
    have hb1 : b1 < 256 := h b1 (by simp)
    simp only [encode64, decode64]
    rw [symVal_sym (by omega), symVal_sym (by omega)]
    simp only [List.cons.injEq, and_true]
    omega
  | case4 => rfl

/-- Witness for C1 at a concrete byte list. -/
theorem C1_encode64_roundtrip_witness :
    decode64 (encode64 [72, 101, 108, 108, 111]) = [72, 101, 108, 108, 111] :=
  C1_encode64_roundtrip [72, 101, 108, 108, 111] (by decide)

/-! ## The line scanners of `renderers.py`

`WordRenderer._convert_markdown_to_docx` and `ExcelRenderer._extract_tables`
both run a stateful loop over `markdown_text.split("\n")`. -/

/-- Python `"|" in line`. -/
def hasPipe (l : String) : Bool := l.data.contains '|'

/-- Python `line.strip().startswith("```")`. -/
def isFence (l : String) : Bool := "```".data.isPrefixOf (trimChars l.data)

/-- The separator-row pattern `re.match(r"^\|[\s\-:|]+\|$", line.strip())`:
a pipe, at least one character drawn from whitespace, `-`, `:`, `|`, and a
closing pipe. -/
def sepMid (c : Char) : Bool := c.isWhitespace || c = '-' || c = ':' || c = '|'

/-- Whether a line is a table separator row (see `sepMid`). -/
def isSepRow (l : String) : Bool :=
  let t := trimChars l.data
  decide (3 ≤ t.length) && t.head? = some '|' && t.getLast? = some '|' &&
    ((t.drop 1).dropLast.all sepMid)

/-- Python `[cell.strip() for cell in line.split("|")[1:-1]]`. -/
def cellsOf (l : String) : List String :=
  (((splitChar '|' l.data).drop 1).dropLast).map fun cs => String.mk (trimChars cs)

/-- One structural block of the flow-document projection. -/
inductive DocxBlock where
  | heading (level : Nat) (text : String)
  | code (text : String)
  | table (rows : List (List String))
  | rule
  | quote (text : String)
  | bullet (text : String)
  | ordered (text : String)
  | para (text : String)
  deriving Repr, DecidableEq

/-- The tail `\s+(.+)$` of the heading/list regexes applied to `cs`: at least
one whitespace character, greedily consumed, then a nonempty remainder (when
everything after the first whitespace is whitespace, backtracking leaves the
final whitespace character as the captured text). -/
def textAfterWs (cs : List Char) : Option (List Char) :=
  let k := (cs.takeWhile Char.isWhitespace).length
  if k = 0 then none
  else if cs.drop k ≠ [] then some (cs.drop k)
  else if 2 ≤ k then some (cs.drop (k - 1))
  else none

/-- Python `re.match(r"^(#{1,6})\s+(.+)$", line)`: level and heading text. -/
def headingOf (l : String) : Option (Nat × String) :=
  let cs := l.data
  let n := (cs.takeWhile fun c => c = '#').length
  if 1 ≤ n ∧ n ≤ 6 then (textAfterWs (cs.drop n)).map fun t => (n, String.mk t)
  else none

/-- Python `re.match(r"^[-*_]{3,}$", line.strip())`. -/
def isRuleLine (l : String) : Bool :=
  let t := trimChars l.data
  decide (3 ≤ t.length) && t.all fun c => c = '-' || c = '*' || c = '_'

/-- Python `line.strip().startswith(">")`. -/
def isQuoteLine (l : String) : Bool := (trimChars l.data).head? = some '>'

/-- Python `line.strip()[1:].strip()`, the quoted text. -/
def quoteText (l : String) : String :=
  String.mk (trimChars ((trimChars l.data).drop 1))

/-- Python `re.match(r"^(\s*)[-*+]\s+(.+)$", line)`: bullet item text. -/
def bulletOf (l : String) : Option String :=
  match l.data.dropWhile Char.isWhitespace with
  | c :: rest =>
    if c = '-' ∨ c = '*' ∨ c = '+' then (textAfterWs rest).map String.mk
    else none
  | [] => none

/-- Python `re.match(r"^(\s*)\d+\.\s+(.+)$", line)`: ordered item text. -/
def orderedOf (l : String) : Option String :=
  let rest := l.data.dropWhile Char.isWhitespace
  let ds := rest.takeWhile Char.isDigit
  if ds = [] then none
  else
    match rest.drop ds.length with
    | '.' :: rest2 => (textAfterWs rest2).map String.mk
    | _ => none

/-- The non-fence, non-table classification rules of
`_convert_markdown_to_docx`, in source order: heading, horizontal rule,
blockquote, bullet item, ordered item, nonblank paragraph, blank (no block). -/
def classifyOther (l : String) : Option DocxBlock :=
  match headingOf l with
  | some (n, t) => some (.heading n t)
  | none =>
    if isRuleLine l then some .rule
    else if isQuoteLine l then some (.quote (quoteText l))
    else
      match bulletOf l with
      | some t => some (.bullet t)
      | none =>
        match orderedOf l with
        | some t => some (.ordered t)
        | none => if trimChars l.data = [] then none else some (.para l)

/-- Python `"\n".join(code_block_content)`. -/
def joinLines (ls : List String) : String := String.intercalate "\n" ls

/-- The loop of `_convert_markdown_to_docx` over the remaining lines, with
state `in_code_block`, `code_block_content`, `in_table`, `table_rows`.  When
an open table meets a non-pipe line the source emits the table, resets the
table state and `continue`s without advancing, re-processing the same line;
since that line is neither a fence nor a pipe line and the scanner is no
longer in a table, the re-processing is exactly its `classifyOther` step,
which is inlined here to keep the recursion structural. -/
def convertLines (lines : List String) (inCode : Bool) (buf : List String)
    (inTable : Bool) (rows : List (List String)) : List DocxBlock :=
  match lines with
  | [] => if inTable = true ∧ rows ≠ [] then [.table rows] else []
  | l :: ls =>
    if isFence l then
      if inCode then .code (joinLines buf) :: convertLines ls false [] inTable rows
      else convertLines ls true buf inTable rows
    else if inCode then convertLines ls true (buf ++ [l]) inTable rows
    else if hasPipe l then
      let rows0 := if inTable then rows else []
      let rows1 :=
        if isSepRow l then rows0
        else match cellsOf l with
          | [] => rows0
          | cs => rows0 ++ [cs]
      convertLines ls false buf true rows1
    else if inTable then
      (if rows ≠ [] then [.table rows] else []) ++
        (match classifyOther l with
          | some b => [b]
          | none => []) ++ convertLines ls false buf false []
    else
      (match classifyOther l with
        | some b => [b]
        | none => []) ++ convertLines ls false buf false rows

/-- Source `_convert_markdown_to_docx`: the block events the Word renderer adds to
the document, in order (the level-0 title heading added by `render` aside). -/
def convertMarkdownToDocx (markdownText : String) : List DocxBlock :=
  convertLines ((splitChar '\n' markdownText.data).map String.mk) false [] false []

/-- The loop of `_extract_tables`, with state `in_table`, `current_table`;
the accumulated `tables` list is the result. -/
def extractGo (lines : List String) (inTable : Bool)
    (cur : List (List String)) : List (List (List String)) :=
  match lines with
  | [] => if inTable = true ∧ cur ≠ [] then [cur] else []
  | l :: ls =>
    if hasPipe l then
      let cur0 := if inTable then cur else []
      if isSepRow l then extractGo ls true cur0
      else match cellsOf l with
        | [] => extractGo ls true cur0
        | cs => extractGo ls true (cur0 ++ [cs])
    else
      (if inTable = true ∧ cur ≠ [] then [cur] else []) ++ extractGo ls false []

/-- Source `_extract_tables`: every table found in the text, in order. -/
def extractTables (markdownText : String) : List (List (List String)) :=
  extractGo ((splitChar '\n' markdownText.data).map String.mk) false []

example : extractTables "| A | B |\n|---|---|\n| 1 | 2 |" =
    [[["A", "B"], ["1", "2"]]] := by decide
example : convertMarkdownToDocx "# Hi\nx|y|z\nend" =
    [.heading 1 "Hi", .table [["y"]], .para "end"] := by decide

/-- The row a pipe-containing line contributes to an open table: separator
rows and lines without interior cells contribute nothing. -/
def rowOf (l : String) : Option (List String) :=
  if isSepRow l then none
  else match cellsOf l with
    | [] => none
    | cs => some cs

/-- The data rows of a run of pipe-containing lines. -/
def goodRows (ls : List String) : List (List String) := ls.filterMap rowOf

/-- Runs `_extract_tables` on an explicit line list, initial state. -/
def extractLines (ls : List String) : List (List (List String)) :=
  extractGo ls false []

/-- Runs `_convert_markdown_to_docx` on an explicit line list, initial state. -/
def wordLines (ls : List String) : List DocxBlock :=
  convertLines ls false [] false []

/-- While a table is open, each further pipe line only appends its data row
(Excel scanner). -/
theorem extractGo_pipes (ps : List String) (tail : List String)
    (cur : List (List String)) (h : ∀ l ∈ ps, hasPipe l = true) :
    extractGo (ps ++ tail) true cur = extractGo tail true (cur ++ goodRows ps) := by
  induction ps generalizing cur with
  | nil => simp [goodRows]
  | cons p ps ih =>
    have hp : hasPipe p = true := h p (by simp)
    have hps : ∀ l ∈ ps, hasPipe l = true := fun l hl => h l (by simp [hl])
    simp only [List.cons_append, extractGo, hp, if_true, goodRows,
      List.filterMap_cons]
    by_cases hs : isSepRow p
    · simp only [hs, if_true, rowOf, if_pos hs]
      exact ih cur hps
    · simp only [hs, if_false, Bool.false_eq_true, rowOf, if_neg hs]
      cases hc : cellsOf p with
      | nil => simpa using ih cur hps
      | cons c cs =>
        simpa [List.append_assoc] using ih (cur ++ [c :: cs]) hps

/-- While a table is open, each further pipe line (that is not a fence) only
appends its data row (Word scanner). -/
theorem convertLines_pipes (ps : List String) (tail : List String)
    (buf : List String) (rows : List (List String))
    (h : ∀ l ∈ ps, hasPipe l = true ∧ isFence l = false) :
    convertLines (ps ++ tail) false buf true rows =
      convertLines tail false buf true (rows ++ goodRows ps) := by
  induction ps generalizing rows with
  | nil => simp [goodRows]
  | cons p ps ih =>
    have hp : hasPipe p = true := (h p (by simp)).1
    have hf : isFence p = false := (h p (by simp)).2
    have hps : ∀ l ∈ ps, hasPipe l = true ∧ isFence l = false :=
      fun l hl => h l (by simp [hl])
    simp only [List.cons_append, convertLines, hp, hf, Bool.false_eq_true,
      if_false, if_true, goodRows, List.filterMap_cons]
    by_cases hs : isSepRow p
    · simp only [hs, if_true, rowOf, if_pos hs]
      exact ih rows hps
    · simp only [hs, if_false, Bool.false_eq_true, rowOf, if_neg hs]
      cases hc : cellsOf p with
      | nil => simpa using ih rows hps
      | cons c cs =>
        simpa [List.append_assoc] using ih (rows ++ [c :: cs]) hps

/-- Inside an open code fence, every line that is not itself a fence marker
is buffered verbatim; when the closing fence arrives the whole buffer is
emitted as one code block and the table state is untouched (Word scanner). -/
theorem convertLines_code (body : List String) (f2 : String)
    (ls : List String) (buf : List String) (inTable : Bool)
    (rows : List (List String)) (hbody : ∀ x ∈ body, isFence x = false)
    (hf2 : isFence f2 = true) :
    convertLines (body ++ f2 :: ls) true buf inTable rows =
      DocxBlock.code (joinLines (buf ++ body)) ::
        convertLines ls false [] inTable rows := by
  induction body generalizing buf with
  | nil => simp [convertLines, hf2]
  | cons x body ih =>
    have hx : isFence x = false := hbody x (by simp)
    have hb : ∀ y ∈ body, isFence y = false := fun y hy => hbody y (by simp [hy])
    simp only [List.cons_append, convertLines, hx, Bool.false_eq_true,
      if_false, if_true]
    simpa [List.append_assoc] using ih (buf ++ [x]) hb

/-- An opened code fence that is never closed buffers every remaining line
and the buffer is never emitted; at end of input only an open table with
rows is flushed (Word scanner). -/
theorem convertLines_unterminated (body : List String) (buf : List String)
    (inTable : Bool) (rows : List (List String))
    (hbody : ∀ x ∈ body, isFence x = false) :
    convertLines body true buf inTable rows =
      if inTable = true ∧ rows ≠ [] then [DocxBlock.table rows] else [] := by
  induction body generalizing buf with
  | nil => simp [convertLines]
  | cons x body ih =>
    have hx : isFence x = false := hbody x (by simp)
    have hb : ∀ y ∈ body, isFence y = false := fun y hy => hbody y (by simp [hy])
    simp only [convertLines, hx, Bool.false_eq_true, if_false, if_true]
    exact ih (buf ++ [x]) hb

/-- Splitting the data rows of a pipe run at its first line. -/
theorem goodRows_cons (p : String) (ps : List String) :
    goodRows (p :: ps) = goodRows [p] ++ goodRows ps := by
  simp only [goodRows, List.filterMap_cons, List.filterMap_nil]
  cases rowOf p <;> simp

/-- A pipe line seen outside a table opens one whose rows start from the
contribution of that line (Excel scanner). -/
theorem extractGo_start (p : String) (tail : List String)
    (hp : hasPipe p = true) :
    extractGo (p :: tail) false [] = extractGo tail true (goodRows [p]) := by
  simp only [extractGo, hp, if_true, Bool.false_eq_true, if_false]
  by_cases hs : isSepRow p
  · simp [hs, goodRows, rowOf]
  · cases hc : cellsOf p with
    | nil => simp [hs, hc, goodRows, rowOf]
    | cons c cs => simp [hs, hc, goodRows, rowOf]

/-- A pipe line seen outside a table opens one whose rows start from the
contribution of that line (Word scanner). -/
theorem convertLines_start (p : String) (tail buf : List String)
    (rows : List (List String)) (hp : hasPipe p = true)
    (hf : isFence p = false) :
    convertLines (p :: tail) false buf false rows =
      convertLines tail false buf true (goodRows [p]) := by
  simp only [convertLines, hp, hf, if_true, Bool.false_eq_true, if_false]
  by_cases hs : isSepRow p
  · simp [hs, goodRows, rowOf]
  · cases hc : cellsOf p with
    | nil => simp [hs, hc, goodRows, rowOf]
    | cons c cs => simp [hs, hc, goodRows, rowOf]

/-- C2 (amended): while the flow-document scanner is inside a code fence,
every line — including one containing `|` — is only buffered into the code
block, emits no event and leaves the table state unchanged; the spreadsheet
projection, by contrast, does not track code fences at all (see the
counterexample), so the mutual exclusion holds only in the flow projection. -/
theorem C2_fence_exclusion_flow (f : String) (body : List String)
    (f2 : String) (ls : List String) (buf : List String) (inTable : Bool)
    (rows : List (List String)) (hf : isFence f = true)
    (hbody : ∀ x ∈ body, isFence x = false) (hf2 : isFence f2 = true) :
    convertLines (f :: (body ++ f2 :: ls)) false buf inTable rows =
      DocxBlock.code (joinLines (buf ++ body)) ::
        convertLines ls false [] inTable rows := by
  simp only [convertLines, hf, if_true, Bool.false_eq_true, if_false]
  exact convertLines_code body f2 ls buf inTable rows hbody hf2

/-- Counterexample to C2 as stated: the spreadsheet projection extracts a
table from a pipe line that sits inside a code fence, so the mutual
exclusion does not hold in the table-extraction projection. -/
theorem C2_counterexample :
    extractTables "```\n| a | b |\n```" = [[["a", "b"]]] := by decide

/-- Witness for C2: a fenced pipe line in the flow projection becomes part
of one code block and produces no table. -/
theorem C2_fence_exclusion_flow_witness :
    convertLines ["```", "| a | b |", "```"] false [] false [] =
      [DocxBlock.code "| a | b |"] := by
  have h := C2_fence_exclusion_flow "```" ["| a | b |"] "```" [] [] false []
    (by decide) (by decide) (by decide)
  simpa using h

/-- C3 (amended): a contiguous block of `|`-containing non-fence lines that
contributes at least one data row produces exactly one table event, whose
rows are the non-separator rows in order (separator rows are consumed and
never emitted); a following line with no `|` that is not a fence closes the
table atomically and is re-classified under the remaining rules rather than
consumed.  (As stated the claim fails: a block of only separator rows emits
no table event, and in the flow scanner a fence line does not close an open
table — see the counterexample.) -/
theorem C3_table_block_amended (ps : List String) (l : String)
    (rest : List String) (hne : ps ≠ [])
    (hps : ∀ x ∈ ps, hasPipe x = true ∧ isFence x = false)
    (hl : hasPipe l = false) (hlf : isFence l = false)
    (hrows : goodRows ps ≠ []) :
    extractLines ps = [goodRows ps]
    ∧ wordLines ps = [DocxBlock.table (goodRows ps)]
    ∧ extractLines (ps ++ l :: rest) = goodRows ps :: extractLines (l :: rest)
    ∧ wordLines (ps ++ l :: rest) =
        DocxBlock.table (goodRows ps) :: wordLines (l :: rest) := by
  obtain ⟨p, ps', rfl⟩ : ∃ p ps', ps = p :: ps' := by
    cases ps with
    | nil => exact absurd rfl hne
    | cons a b => exact ⟨a, b, rfl⟩
  have hp : hasPipe p = true := (hps p (by simp)).1
  have hpf : isFence p = false := (hps p (by simp)).2
  have hps' : ∀ x ∈ ps', hasPipe x = true := fun x hx => (hps x (by simp [hx])).1
  have hps'' : ∀ x ∈ ps', hasPipe x = true ∧ isFence x = false :=
    fun x hx => hps x (by simp [hx])
  have hgr : goodRows [p] ++ goodRows ps' = goodRows (p :: ps') :=
    (goodRows_cons p ps').symm
  refine ⟨?_, ?_, ?_, ?_⟩
  · have h1 : extractLines (p :: ps') = extractGo (ps' ++ []) true (goodRows [p]) := by
      simpa [extractLines] using extractGo_start p ps' hp
    rw [h1, extractGo_pipes ps' [] (goodRows [p]) hps', hgr]
    simp [extractGo, hrows]
  · have h1 : wordLines (p :: ps') =
        convertLines (ps' ++ []) false [] true (goodRows [p]) := by
      simpa [wordLines] using convertLines_start p ps' [] [] hp hpf
    rw [h1, convertLines_pipes ps' [] [] (goodRows [p]) hps'', hgr]
    simp [convertLines, hrows]
  · have h1 : extractLines ((p :: ps') ++ l :: rest) =
        extractGo (ps' ++ l :: rest) true (goodRows [p]) := by
      simpa [extractLines] using extractGo_start p (ps' ++ l :: rest) hp
    rw [h1, extractGo_pipes ps' (l :: rest) (goodRows [p]) hps', hgr]
    simp [extractGo, extractLines, hl, hrows]
  · have h1 : wordLines ((p :: ps') ++ l :: rest) =
        convertLines (ps' ++ l :: rest) false [] true (goodRows [p]) := by
      simpa [wordLines] using convertLines_start p (ps' ++ l :: rest) [] [] hp hpf
    rw [h1, convertLines_pipes ps' (l :: rest) [] (goodRows [p]) hps'', hgr]
    simp only [convertLines, hl, hlf, Bool.false_eq_true, if_false, wordLines,
      hrows, ne_eq, not_false_iff, and_true, if_true, List.singleton_append,
      List.append_assoc, List.cons_append, List.nil_append]

/-- Counterexample to C3 as stated: a contiguous pipe block consisting only
of a separator row emits zero table events (not exactly one), and in the
flow scanner the first non-pipe line, when it is a code fence, does not
close the open table — the code block is emitted before the table. -/
theorem C3_counterexample :
    extractTables "|---|" = []
    ∧ convertMarkdownToDocx "|a|\n```\nx\n```" =
        [DocxBlock.code "x", DocxBlock.table [["a"]]] := by
  constructor
  · decide
  · decide

/-- Witness for C3 on the spec scenario table. -/
theorem C3_table_block_amended_witness :
    extractLines ["| A | B |", "|---|---|", "| 1 | 2 |"] = [[["A", "B"], ["1", "2"]]]
    ∧ wordLines ["| A | B |", "|---|---|", "| 1 | 2 |"] =
        [DocxBlock.table [["A", "B"], ["1", "2"]]] := by
  have h := C3_table_block_amended ["| A | B |", "|---|---|", "| 1 | 2 |"]
    "x" [] (by decide) (by decide) (by decide) (by decide) (by decide)
  exact ⟨by simpa using h.1, by simpa using h.2.1⟩

/-- C4 (amended): at end of input a still-open table accumulation with rows
is flushed and emitted, in both the flow and the spreadsheet scanners; a
still-open code block, however, is silently discarded by the flow scanner —
its buffered lines appear in no emitted block. -/
theorem C4_eof_flush_amended (f : String) (body buf : List String)
    (inTable : Bool) (rows : List (List String)) (inT : Bool)
    (cur : List (List String)) (hf : isFence f = true)
    (hbody : ∀ x ∈ body, isFence x = false) :
    convertLines (f :: body) false buf inTable rows =
      (if inTable = true ∧ rows ≠ [] then [DocxBlock.table rows] else [])
    ∧ extractGo [] inT cur = (if inT = true ∧ cur ≠ [] then [cur] else []) := by
  constructor
  · simp only [convertLines, hf, if_true, Bool.false_eq_true, if_false]
    exact convertLines_unterminated body buf inTable rows hbody
  · rfl

/-- Counterexample to C4 as stated: an input ending inside an open code
fence loses the buffered code — no block at all is emitted for it. -/
theorem C4_counterexample : convertMarkdownToDocx "```\nhello" = [] := by
  decide

/-- Witness for C4: with an open table and an unterminated fence, the table
is flushed and the buffered code line is dropped. -/
theorem C4_eof_flush_amended_witness :
    convertLines ["```", "hello"] false [] true [["a"]] =
      [DocxBlock.table [["a"]]]
    ∧ extractGo [] true [["b"]] = [[["b"]]] := by
  have h := C4_eof_flush_amended "```" ["hello"] [] true [["a"]] true [["b"]]
    (by decide) (by decide)
  exact ⟨by simpa using h.1, by simpa using h.2⟩

/-! ## The Mermaid resolver (`MermaidPreprocessor`)

`_render_with_mmdc` writes the diagram source to a fresh temporary `.mmd`
file, invokes the external `mmdc` tool with `timeout=30`, reads the `.svg`
output if the tool succeeded, and in a `finally` block unlinks both paths
(`missing_ok=True`).  The external tool, the temporary-file system and
`hashlib.md5` are collaborators outside the repository: the tool invocation
is modelled by its possible outcomes, the file system by the list of
existing paths, and the hash by an arbitrary function parameter. -/

/-- The `timeout=30` bound passed to `subprocess.run`. -/
def mmdcTimeoutBound : Nat := 30

/-- Outcome of one external `mmdc` invocation: the process completed with an
exit code (and possibly wrote the output file), timed out, or the tool was
not found. -/
inductive MmdcRun where
  | completes (exitCode : Nat) (output : Option String)
  | timeout
  | notFound
  deriving Repr, DecidableEq

/-- Source `_render_with_mmdc` as a file-system transformer: returns the resulting
set of paths and either `Except.error ()` (a `SubprocessError` /
`FileNotFoundError` escaping to the caller) or the optional SVG content.
The temporary input path is created unconditionally; the output path exists
only if the tool wrote it; the `finally` block unlinks both on every exit
path. -/
def renderWithMmdc (fs : List String) (inputPath outputPath : String)
    (run : MmdcRun) : List String × Except Unit (Option String) :=
  let fs1 := fs ++ [inputPath]
  match run with
  | .completes exitCode output =>
    let fs2 := match output with
      | some _ => fs1 ++ [outputPath]
      | none => fs1
    let res := match output with
      | some svg => if exitCode = 0 then some svg else none
      | none => none
    ((fs2.erase inputPath).erase outputPath, .ok res)
  | .timeout => ((fs1.erase inputPath).erase outputPath, .error ())
  | .notFound => ((fs1.erase inputPath).erase outputPath, .error ())

/-- Python `mermaid_code.replace("<", "&lt;").replace(">", "&gt;")`. -/
def escapeHtml (s : String) : String :=
  (s.replace "<" "&lt;").replace ">" "&gt;"

/-- Source `_create_client_side_mermaid`: the escaped client-side placeholder; the
identifier is the first 8 hex digits of the MD5 of the source
(`hashlib.md5` is passed in as `md5hex`). -/
def createClientSideMermaid (md5hex : String → String) (code : String) :
    String :=
  let diagramId := String.mk ((md5hex code).data.take 8)
  let escaped := escapeHtml code
  "<pre class=\"mermaid\" id=\"mermaid-" ++ diagramId ++ "\">" ++ escaped ++
    "</pre>"

/-- Source `_render_mermaid`: try the tool; a nonempty SVG is wrapped in a
container div, every other outcome (exception caught, `None`, empty
content) falls back to the client-side placeholder. -/
def renderMermaid (md5hex : String → String) (fs : List String)
    (inputPath outputPath : String) (run : MmdcRun) (code : String) :
    List String × String :=
  let out := renderWithMmdc fs inputPath outputPath run
  match out.2 with
  | .ok (some svg) =>
    if svg = "" then (out.1, createClientSideMermaid md5hex code)
    else (out.1, "<div class=\"mermaid-diagram\">" ++ svg ++ "</div>")
  | .ok none => (out.1, createClientSideMermaid md5hex code)
  | .error _ => (out.1, createClientSideMermaid md5hex code)

/-- C5: whenever the external diagram tool is unavailable, exits non-zero
or times out (the bound is the literal 30), the resolver produces the
escaped `<pre>` placeholder — it never propagates the failure — and the
short identifier of the placeholder is the 8-character prefix of the content
hash of the diagram source alone, so identical sources receive identical
identifiers regardless of the failure mode or file-system state. -/
theorem C5_mermaid_fallback (md5hex : String → String) (fs : List String)
    (inputPath outputPath : String) (run : MmdcRun) (code : String)
    (hfail : run = .notFound ∨ run = .timeout ∨
      ∃ c o, run = .completes c o ∧ (c ≠ 0 ∨ o = none)) :
    (renderMermaid md5hex fs inputPath outputPath run code).2 =
      createClientSideMermaid md5hex code
    ∧ createClientSideMermaid md5hex code =
        "<pre class=\"mermaid\" id=\"mermaid-" ++
          String.mk ((md5hex code).data.take 8) ++ "\">" ++ escapeHtml code ++
          "</pre>"
    ∧ mmdcTimeoutBound = 30 := by
  refine ⟨?_, rfl, rfl⟩
  rcases hfail with h | h | ⟨c, o, h, hco⟩
  · subst h; rfl
  · subst h; rfl
  · subst h
    cases o with
    | none => rfl
    | some svg =>
      rcases hco with hc | ho
      · simp [renderMermaid, renderWithMmdc, hc]
      · exact absurd ho (by simp)

/-- Witness for C5: tool missing, concrete hash function and source. -/
theorem C5_mermaid_fallback_witness :
    (renderMermaid (fun _ => "0123456789abcdef") [] "t.mmd" "t.svg"
        MmdcRun.notFound "graph TD").2 =
      createClientSideMermaid (fun _ => "0123456789abcdef") "graph TD" :=
  (C5_mermaid_fallback (fun _ => "0123456789abcdef") [] "t.mmd" "t.svg"
    MmdcRun.notFound "graph TD" (Or.inl rfl)).1

/-- C9: the temporary input and output paths, fresh before the call, are
absent from the file system after it on every exit path — success, tool
error, missing tool and timeout alike. -/
theorem C9_temp_files_removed (fs : List String)
    (inputPath outputPath : String) (run : MmdcRun)
    (hin : inputPath ∉ fs) (hout : outputPath ∉ fs) :
    (renderWithMmdc fs inputPath outputPath run).1 = fs := by
  have hboth : ((fs ++ [inputPath]).erase inputPath).erase outputPath = fs := by
    rw [List.erase_append_right _ hin]
    simpa using List.erase_of_not_mem hout
  cases run with
  | completes exitCode output =>
    cases output with
    | none => simpa [renderWithMmdc] using hboth
    | some svg =>
      simp only [renderWithMmdc]
      rw [List.append_assoc, List.erase_append_right _ hin]
      simp only [List.singleton_append, List.erase_cons_head]
      rw [List.erase_append_right _ hout]
      simp
  | timeout => simpa [renderWithMmdc] using hboth
  | notFound => simpa [renderWithMmdc] using hboth

/-- Witness for C9: a timed-out invocation leaves the file system as found. -/
theorem C9_temp_files_removed_witness :
    (renderWithMmdc ["doc.md"] "tmp.mmd" "tmp.svg" MmdcRun.timeout).1 =
      ["doc.md"] :=
  C9_temp_files_removed ["doc.md"] "tmp.mmd" "tmp.svg" MmdcRun.timeout
    (by decide) (by decide)

/-! ## `MarkdownParser.parse` and the state-reset contract -/

/-- Modelled from the spec: the internal conversion state of the external
Markdown engine, notably the table of contents attribute read by `get_toc`;
the library itself is not part of the repository. -/
structure MdEngine where
  toc : String
  deriving Repr, DecidableEq

/-- Modelled from the spec: `markdown.Markdown.reset` restores the
internal conversion state of the engine to its initial value, whatever the state was. -/
def mdReset (_e : MdEngine) : MdEngine := { toc := "" }

/-- Source `MarkdownParser.parse`: reset the engine, then convert.  The engine function
`convert` is an external collaborator and is taken as an arbitrary function
of the (reset) state and the input text, returning the HTML fragment and
the new state. -/
def parseMd (convert : MdEngine → String → String × MdEngine)
    (e : MdEngine) (text : String) : String × MdEngine :=
  convert (mdReset e) text

/-- Source `MarkdownParser.get_toc`: read the toc attribute of the engine. -/
def getToc (e : MdEngine) : String := e.toc

/-- C6: whatever the engine function `convert` does, parsing document `a` and then
document `b` on the same instance yields exactly the table of contents (and
HTML) that parsing `b` alone yields on any other instance history: because
`parse` resets the full conversion state first, nothing from `a` — in
particular no heading of `a` — can reach the TOC returned after `b`. -/
theorem C6_parse_reset_isolation
    (convert : MdEngine → String → String × MdEngine) (e1 e2 : MdEngine)
    (a b : String) :
    getToc (parseMd convert (parseMd convert e1 a).2 b).2 =
      getToc (parseMd convert e2 b).2
    ∧ (parseMd convert (parseMd convert e1 a).2 b).1 =
        (parseMd convert e2 b).1 := ⟨rfl, rfl⟩

/-! ## The unified `/render` endpoint of `api.py` -/

/-- A `/render` request body: the fields the handler reads. -/
structure RenderRequest where
  markdown : Option String
  format : Option String
  deriving Repr, DecidableEq

/-- The keyword parameters accepted by `MarkdownParser.__init__`
(`parser.py` lines 172-175): only `plantuml_server`. -/
def parserInitKeywords : List String := ["plantuml_server"]

/-- The keyword arguments the `render` handler passes when constructing
`MarkdownParser` (`api.py` line 210). -/
def renderCallKeywords : List String := ["plantuml_server", "mermaid_server"]

/-- Python call semantics: passing a keyword argument the signature does not
accept raises `TypeError`. -/
def parserCallRaisesTypeError : Bool :=
  !(renderCallKeywords.all fun k => parserInitKeywords.contains k)

/-- The `render` handler: missing-field checks, then a `try` block whose
first statement constructs `MarkdownParser(plantuml_server=...,
mermaid_server=...)`; any exception in the block is answered with HTTP 500,
and only afterwards would an unrecognized format reach the 400 branch. -/
def renderEndpoint (req : RenderRequest) : Nat × String :=
  match req.markdown with
  | none => (400, "Missing markdown field in request body")
  | some _ =>
    match req.format with
    | none => (400, "Missing format field in request body")
    | some fmt =>
      let f := fmt.toLower
      if parserCallRaisesTypeError then
        (500, "TypeError: unexpected keyword argument mermaid_server")
      else if f = "html" ∨ f = "pdf" ∨ f = "docx" ∨ f = "xlsx" then
        (200, "rendered")
      else
        (400, "Unsupported format: " ++ f ++
          ". Supported formats: html, pdf, docx, xlsx")

/-- C7: the code as written cannot answer 400 for an unsupported format —
the handler constructs `MarkdownParser` with the unsupported
`mermaid_server` keyword before reaching the format dispatch, so every
request carrying both fields (the spec scenario `format: "invalid"`
included) is answered with HTTP 500, contradicting the spec and the
test `test_render_unified_invalid_format` of the repository itself. -/
theorem C7_render_invalid_format_is_500 :
    (∀ m f : String, (renderEndpoint ⟨some m, some f⟩).1 = 500)
    ∧ renderEndpoint ⟨some "# Hello", some "invalid"⟩ =
        (500, "TypeError: unexpected keyword argument mermaid_server")
    ∧ (renderEndpoint ⟨some "# Hello", some "invalid"⟩).1 ≠ 400 :=
  ⟨fun _ _ => rfl, rfl, by decide⟩

/-! ## The Excel projection (`ExcelRenderer.render`) -/

/-- One written worksheet cell with the formatting the source applies. -/
structure XCell where
  row : Nat
  col : Nat
  value : String
  bold : Bool
  size : Option Nat
  centered : Bool
  deriving Repr, DecidableEq

/-- The inner loop `for col_idx, cell in enumerate(row, start=1)`: one table
row written at worksheet row `r`, headers bold and centered. -/
def rowCellsGo (r c : Nat) (hdr : Bool) : List String → List XCell
  | [] => []
  | v :: vs => ⟨r, c, v, hdr, none, hdr⟩ :: rowCellsGo r (c + 1) hdr vs

/-- The loop `for row_idx, row in enumerate(table)`: rows written at
`current_row + row_idx`, row index 0 formatted as the header. -/
def tableRowsGo (s ri : Nat) : List (List String) → List XCell
  | [] => []
  | row :: rows =>
    rowCellsGo (s + ri) 1 (decide (ri = 0)) row ++ tableRowsGo s (ri + 1) rows

/-- All cells of one table placed with its header at worksheet row `s`. -/
def tableCells (s : Nat) (t : List (List String)) : List XCell :=
  tableRowsGo s 0 t

/-- The outer loop over `enumerate(tables)` with `current_row`, adding 2 to
`current_row` before every table except the first and the table length
after it. -/
def placeGo (cur idx : Nat) : List (List (List String)) → List XCell
  | [] => []
  | t :: ts =>
    let cur1 := if 0 < idx then cur + 2 else cur
    tableCells cur1 t ++ placeGo (cur1 + t.length) (idx + 1) ts

/-- The no-tables fallback loop `enumerate(lines, start=3)`: one raw line
per row, column 1, no styling. -/
def fallbackGo (r : Nat) : List String → List XCell
  | [] => []
  | l :: ls => ⟨r, 1, l, false, none, false⟩ :: fallbackGo (r + 1) ls

/-- The cells `ExcelRenderer.render` writes: either the title cell (bold,
size 14, row 1) followed by the lines of the stripped input from row 3, or
the extracted tables laid out by `placeGo` starting at row 1. -/
def excelCells (markdownText title : String) : List XCell :=
  let tables := extractTables markdownText
  if tables = [] then
    ⟨1, 1, title, true, some 14, false⟩ ::
      fallbackGo 3 ((splitChar '\n' (trimChars markdownText.data)).map String.mk)
  else placeGo 1 0 tables

/-- Python `title[:31]`, the Excel sheet-name limit applied by the source. -/
def excelSheetName (title : String) : String := String.mk (title.data.take 31)

/-- Width `min(max_length + 2, 50)`: the width given to column `c`, where
`max_length` ranges over the nonempty values written in that column. -/
def colWidth (cells : List XCell) (c : Nat) : Nat :=
  let m := (cells.filter fun x => x.col == c && !(x.value == "")).foldl
    (fun acc x => max acc x.value.length) 0
  min (m + 2) 50

/-- The worksheet `ExcelRenderer.render` builds. -/
structure ExcelSheet where
  name : String
  cells : List XCell
  deriving Repr, DecidableEq

/-- Source `ExcelRenderer.render` (worksheet content; serialization to bytes is an
external collaborator). -/
def excelRender (markdownText title : String) : ExcelSheet :=
  { name := excelSheetName title, cells := excelCells markdownText title }

/-- The layout in the words of the claim: the first table starts at row 1
and each following table starts exactly `previous length + 2` rows later,
leaving a gap of exactly two blank rows between consecutive tables. -/
def layoutSpecGo (s : Nat) : List (List (List String)) → List XCell
  | [] => []
  | t :: ts => tableCells s t ++ layoutSpecGo (s + t.length + 2) ts

/-- After the first table the placement loop is the claimed layout shifted
by the 2-row gap. -/
theorem placeGo_succ (ts : List (List (List String))) (cur idx : Nat) :
    placeGo cur (idx + 1) ts = layoutSpecGo (cur + 2) ts := by
  induction ts generalizing cur idx with
  | nil => rfl
  | cons t ts ih =>
    simp only [placeGo, layoutSpecGo, Nat.zero_lt_succ, if_pos]
    rw [ih]

/-- The placement loop from the initial state realizes the claimed layout. -/
theorem placeGo_zero (ts : List (List (List String))) (cur : Nat) :
    placeGo cur 0 ts = layoutSpecGo cur ts := by
  cases ts with
  | nil => rfl
  | cons t ts => simp [placeGo, layoutSpecGo, placeGo_succ]

/-- Cells of one written row: fixed row, formatting equal to the header
flag. -/
theorem rowCellsGo_mem (vs : List String) (r c : Nat) (hdr : Bool)
    (cell : XCell) (h : cell ∈ rowCellsGo r c hdr vs) :
    cell.row = r ∧ cell.bold = hdr ∧ cell.centered = hdr := by
  induction vs generalizing c with
  | nil => cases h
  | cons v vs ih =>
    rcases List.mem_cons.1 h with h | h
    · subst h; exact ⟨rfl, rfl, rfl⟩
    · exact ih (c + 1) h

/-- Cells of the row loop: each lies in the row band of the table and is header
formatted exactly on the first row. -/
theorem tableRowsGo_mem (rows : List (List String)) (s ri : Nat)
    (cell : XCell) (h : cell ∈ tableRowsGo s ri rows) :
    ∃ k, ri ≤ k ∧ k < ri + rows.length ∧ cell.row = s + k ∧
      cell.bold = decide (k = 0) ∧ cell.centered = cell.bold := by
  induction rows generalizing ri with
  | nil => cases h
  | cons row rows ih =>
    rcases List.mem_append.1 h with h | h
    · obtain ⟨hr, hb, hc⟩ := rowCellsGo_mem row (s + ri) 1 (decide (ri = 0)) cell h
      refine ⟨ri, le_refl ri, ?_, hr, by rw [hb], by rw [hc, hb]⟩
      simp only [List.length_cons]
      omega
    · obtain ⟨k, hk1, hk2, hk3⟩ := ih (ri + 1) h
      refine ⟨k, by omega, ?_, hk3⟩
      simp only [List.length_cons]
      omega

/-- C8: the spreadsheet projection lays the extracted tables out vertically
with exactly two blank rows between consecutive tables (`layoutSpecGo`
states the claimed row arithmetic, and every cell of a table sits inside
its row band, so the gap rows are blank); the header row of each table —
and only it — is bold and horizontally centered; with zero tables the
title (bold, size 14) is written at row 1 and the lines of the stripped
input from row 3 down, one per row in column 1; and every column width is
capped at 50 units. -/
theorem C8_excel_layout (text title : String) :
    (extractTables text ≠ [] →
      (excelRender text title).cells = layoutSpecGo 1 (extractTables text))
    ∧ (extractTables text = [] →
      (excelRender text title).cells =
        ⟨1, 1, title, true, some 14, false⟩ ::
          fallbackGo 3 ((splitChar '\n' (trimChars text.data)).map String.mk))
    ∧ (∀ (s : Nat) (t : List (List String)) (cell : XCell),
        cell ∈ tableCells s t →
          (cell.bold = true ↔ cell.row = s) ∧ cell.centered = cell.bold ∧
            s ≤ cell.row ∧ cell.row < s + t.length)
    ∧ (∀ c, colWidth ((excelRender text title).cells) c ≤ 50) := by
  refine ⟨?_, ?_, ?_, ?_⟩
  · intro h
    simp only [excelRender, excelCells, if_neg h]
    exact placeGo_zero _ 1
  · intro h
    simp [excelRender, excelCells, h]
  · intro s t cell hmem
    obtain ⟨k, hk0, hklt, hrow, hbold, hcent⟩ := tableRowsGo_mem t s 0 cell hmem
    refine ⟨?_, hcent, by omega, by omega⟩
    rw [hbold, hrow]
    simp only [decide_eq_true_eq]
    omega
  · intro c
    exact Nat.min_le_right _ _

/-- Witness for C8 on the spec scenario input. -/
theorem C8_excel_layout_witness :
    (excelRender "| A | B |\n|---|---|\n| 1 | 2 |" "T").cells =
      layoutSpecGo 1 (extractTables "| A | B |\n|---|---|\n| 1 | 2 |")
    ∧ colWidth ((excelRender "| A | B |\n|---|---|\n| 1 | 2 |" "T").cells) 1 ≤ 50 :=
  ⟨(C8_excel_layout "| A | B |\n|---|---|\n| 1 | 2 |" "T").1 (by decide),
    (C8_excel_layout "| A | B |\n|---|---|\n| 1 | 2 |" "T").2.2.2 1⟩

example :
    (excelRender "| A | B |\n|---|---|\n| 1 | 2 |" "T").cells =
      [⟨1, 1, "A", true, none, true⟩, ⟨1, 2, "B", true, none, true⟩,
        ⟨2, 1, "1", false, none, false⟩, ⟨2, 2, "2", false, none, false⟩] := by
  decide

/-- C10: the worksheet name is exactly the first 31 characters of the
title — titles of length at most 31 are used unchanged, longer ones are
silently truncated to 31 characters. -/
theorem C10_sheet_name_truncation (text title : String) :
    (excelRender text title).name = excelSheetName title
    ∧ (title.length ≤ 31 → excelSheetName title = title)
    ∧ (31 < title.length → (excelSheetName title).length = 31 ∧
        (excelSheetName title).data = title.data.take 31) := by
  refine ⟨rfl, ?_, ?_⟩
  · intro h
    obtain ⟨d⟩ := title
    simp only [excelSheetName]
    congr 1
    exact List.take_of_length_le (by simpa [String.length] using h)
  · intro h
    refine ⟨?_, rfl⟩
    simp only [excelSheetName, String.length] at h ⊢
    simp only [List.length_take]
    omega

/-- Witness for C10: a short title is kept, a 40-character title is cut to
31 characters. -/
theorem C10_sheet_name_truncation_witness :
    excelSheetName "Report" = "Report"
    ∧ (excelSheetName "0123456789012345678901234567890123456789").length = 31 :=
  ⟨(C10_sheet_name_truncation "" "Report").2.1 (by decide),
    ((C10_sheet_name_truncation ""
      "0123456789012345678901234567890123456789").2.2 (by decide)).1⟩
